import Mathlib

/-!
# Verification of the cloud-db-performance-test repository

Shallow embedding, in Lean 4, of the parts of the repository that the
checked claims are about, together with proofs settling each claim.

Conventions used throughout:
* Python lists become Lean `List`s; Python dicts become association lists
  (`List (key × value)`), looked up with `dlookup` below (first binding wins,
  matching the uniqueness of keys in a Python dict).
* Python strings are Lean `String`s, or `List Char` where we reason about
  prefix structure (Python `str.startswith` is exactly list-prefix on the
  character sequence).
* Python floats are embedded as exact rationals `ℚ`: every claim checked
  here is about the arithmetic expression computed, and the concrete values
  involved are exactly representable.
* Fallible or stateful code becomes explicit state passing.
-/

/-! ## Data Processor (`src/services/data_processor.py`)

`DataProcessor.chunk_data` (lines 37-40):
```
def chunk_data(self, data):
    for i in range(0, len(data), self.chunk_size):
        yield data[i:i + self.chunk_size]
```
`data[i:i+c]` is `(data.drop i).take c`; iterating `i = 0, c, 2c, ...` is the
recursion below.  The Python generator is only defined for `chunk_size > 0`
(`range` raises `ValueError` on step 0); the `chunk_size = 0` branch returning
`[]` is a modelling artifact never used by the claims, which assume `c > 0`.
-/

def chunk_data {α : Type} (chunk_size : Nat) (data : List α) : List (List α) :=
  if _hc : chunk_size = 0 then []
  else if _h : data.isEmpty then []
  else data.take chunk_size :: chunk_data chunk_size (data.drop chunk_size)
termination_by data.length
decreasing_by
  simp only [List.length_drop]
  have h2 : data ≠ [] := by
    intro hnil
    rw [hnil] at _h
    exact _h rfl
  have := List.length_pos.mpr h2
  omega

theorem chunk_data_nil {α : Type} (c : Nat) : chunk_data c ([] : List α) = [] := by
  rw [chunk_data]
  simp

theorem chunk_data_cons {α : Type} (c : Nat) (hc : 0 < c) (data : List α) (hd : data ≠ []) :
    chunk_data c data = data.take c :: chunk_data c (data.drop c) := by
  rw [chunk_data]
  have h1 : c ≠ 0 := by omega
  have h2 : data.isEmpty = false := by
    cases data with
    | nil => exact absurd rfl hd
    | cons x xs => rfl
  simp [h1, h2]

theorem chunk_data_flatten {α : Type} (c : Nat) (hc : 0 < c) (data : List α) :
    (chunk_data c data).flatten = data := by
  by_cases hd : data = []
  · subst hd; rw [chunk_data_nil]; rfl
  · rw [chunk_data_cons c hc data hd]
    simp only [List.flatten_cons]
    rw [chunk_data_flatten c hc (data.drop c)]
    exact List.take_append_drop c data
termination_by data.length
decreasing_by
  simp only [List.length_drop]
  have := List.length_pos.mpr hd
  omega

theorem chunk_data_length {α : Type} (c : Nat) (hc : 0 < c) (data : List α) :
    (chunk_data c data).length = (data.length + c - 1) / c := by
  by_cases hd : data = []
  · subst hd
    rw [chunk_data_nil]
    simp only [List.length_nil]
    rw [Nat.div_eq_of_lt (by omega)]
  · rw [chunk_data_cons c hc data hd]
    simp only [List.length_cons]
    rw [chunk_data_length c hc (data.drop c)]
    simp only [List.length_drop]
    have hpos : 0 < data.length := List.length_pos.mpr hd
    rcases le_or_lt data.length c with h | h
    · have h1 : data.length - c = 0 := by omega
      rw [h1]
      have e2 : data.length + c - 1 = (data.length - 1) + c := by omega
      rw [e2, Nat.add_div_right _ hc]
      have e3 : (data.length - 1) / c = 0 := Nat.div_eq_of_lt (by omega)
      have e4 : (0 + c - 1) / c = 0 := Nat.div_eq_of_lt (by omega)
      rw [e3, e4]
    · have e1 : data.length - c + c - 1 = (data.length - c - 1) + c := by omega
      have e2 : data.length + c - 1 = (data.length - 1) + c := by omega
      rw [e1, e2, Nat.add_div_right _ hc, Nat.add_div_right _ hc]
      have e3 : data.length - 1 = (data.length - c - 1) + c := by omega
      rw [e3, Nat.add_div_right _ hc]
termination_by data.length
decreasing_by
  simp only [List.length_drop]
  have := List.length_pos.mpr hd
  omega

theorem chunk_data_dropLast {α : Type} (c : Nat) (hc : 0 < c) (data : List α) :
    ∀ ch ∈ (chunk_data c data).dropLast, ch.length = c := by
  by_cases hd : data = []
  · subst hd; rw [chunk_data_nil]; intro ch hch; simp at hch
  · rw [chunk_data_cons c hc data hd]
    intro ch hch
    cases hrest : chunk_data c (data.drop c) with
    | nil => rw [hrest] at hch; simp at hch
    | cons x xs =>
      rw [hrest] at hch
      rw [List.dropLast_cons₂] at hch
      rcases List.mem_cons.mp hch with hch | hch
      · subst hch
        have hne : data.drop c ≠ [] := by
          intro hnil
          rw [hnil, chunk_data_nil] at hrest
          exact List.cons_ne_nil x xs hrest.symm
        have hlt : c < data.length := by
          by_contra hle
          exact hne (List.drop_eq_nil_of_le (by omega))
        simp [List.length_take]
        omega
      · have := chunk_data_dropLast c hc (data.drop c)
        rw [hrest] at this
        exact this ch hch
termination_by data.length
decreasing_by
  simp only [List.length_drop]
  have := List.length_pos.mpr hd
  omega

/-- C1: for every record list of length `n` and chunk size `c > 0`, `chunk_data`
yields `⌈n/c⌉` chunks (in `Nat` arithmetic, `(n + c - 1) / c`), every chunk except
possibly the last has exactly `c` elements, and concatenating the chunks in yield
order reproduces the original list exactly. -/
theorem C1_chunk_data_spec {α : Type} (c : Nat) (hc : 0 < c) (data : List α) :
    (chunk_data c data).length = (data.length + c - 1) / c ∧
    (∀ ch ∈ (chunk_data c data).dropLast, ch.length = c) ∧
    (chunk_data c data).flatten = data :=
  ⟨chunk_data_length c hc data, chunk_data_dropLast c hc data, chunk_data_flatten c hc data⟩

/-- C1 witness: the specification evaluated at chunk size 2 over a 5-element list. -/
theorem C1_chunk_data_spec_witness :
    (chunk_data 2 [10, 20, 30, 40, 50]).length = (([10, 20, 30, 40, 50] : List Nat).length + 2 - 1) / 2 ∧
    (∀ ch ∈ (chunk_data 2 [10, 20, 30, 40, 50]).dropLast, ch.length = 2) ∧
    (chunk_data 2 ([10, 20, 30, 40, 50] : List Nat)).flatten = [10, 20, 30, 40, 50] :=
  C1_chunk_data_spec 2 (by decide) [10, 20, 30, 40, 50]

/-! ## Filename-to-table routing (`src/data_migration.py` lines 52-66;
the identical chain also appears in `src/services/migration/migrator.py`
lines 44-57)

Filenames are modelled as `List Char`; Python `str.startswith(p)` is exactly
`p <+: s` on the character sequence, and it is case-sensitive.  The `else`
branch of `DataMigrator.process_file` (lines 164-167) returns a skip record
with reason `"unknown file pattern"` when no prefix matches; the rest of
`process_file` (file IO and insertion) is not needed by any claim and is
represented by the `process` constructor carrying the resolved table name.
-/

def pfxCNSTWK : List Char := "BidPublicInfoService_BID_CNSTWK_".toList

def pfxSERVC : List Char := "BidPublicInfoService_BID_SERVC_".toList

def pfxTHNG : List Char := "BidPublicInfoService_BID_THNG_".toList

def pfxFRGCPT : List Char := "BidPublicInfoService_BID_FRGCPT_".toList

def pfxSCSBID : List Char := "PubDataOpnStdService_ScsBidInfo_".toList

def get_table_name_from_filename (filename : List Char) : Option (List Char) :=
  if pfxCNSTWK <+: filename then some "bid_pblanclistinfo_cnstwk".toList
  else if pfxSERVC <+: filename then some "bid_pblanclistinfo_servc".toList
  else if pfxTHNG <+: filename then some "bid_pblanclistinfo_thng".toList
  else if pfxFRGCPT <+: filename then some "bid_pblanclistinfo_frgcpt".toList
  else if pfxSCSBID <+: filename then some "opn_std_scsbid_info".toList
  else none

inductive RouteOutcome where
  | skipped (reason : String)
  | process (table : List Char)

def process_file_route (filename : List Char) : RouteOutcome :=
  match get_table_name_from_filename filename with
  | none => RouteOutcome.skipped "unknown file pattern"
  | some t => RouteOutcome.process t

/-- If `a` and `b` differ at index `i` then `a` is not a prefix of `b ++ r`. -/
theorem not_prefix_append_of_getElem_ne (a b : List Char) (i : Nat)
    (ha : i < a.length) (hb : i < b.length)
    (hne : a[i] ≠ b[i]) (r : List Char) : ¬ a <+: (b ++ r) := by
  intro hpre
  have hab : i < (b ++ r).length := by
    rw [List.length_append]
    omega
  have h1 : a[i] = (b ++ r)[i] := List.IsPrefix.getElem hpre ha
  have h2 : (b ++ r)[i] = b[i] := List.getElem_append_left hb
  exact hne (h1.trans h2)

/-- C2: table routing is exact-prefix and case-sensitive.  A filename starting
with one of the five fixed prefixes maps to its corresponding bid table, and
every filename starting with none of them maps to no table and is recorded as
skipped with reason "unknown file pattern". -/
theorem C2_filename_routing_spec (filename : List Char) :
    (pfxCNSTWK <+: filename →
      get_table_name_from_filename filename = some "bid_pblanclistinfo_cnstwk".toList) ∧
    (pfxSERVC <+: filename →
      get_table_name_from_filename filename = some "bid_pblanclistinfo_servc".toList) ∧
    (pfxTHNG <+: filename →
      get_table_name_from_filename filename = some "bid_pblanclistinfo_thng".toList) ∧
    (pfxFRGCPT <+: filename →
      get_table_name_from_filename filename = some "bid_pblanclistinfo_frgcpt".toList) ∧
    (pfxSCSBID <+: filename →
      get_table_name_from_filename filename = some "opn_std_scsbid_info".toList) ∧
    (¬ pfxCNSTWK <+: filename → ¬ pfxSERVC <+: filename → ¬ pfxTHNG <+: filename →
     ¬ pfxFRGCPT <+: filename → ¬ pfxSCSBID <+: filename →
      get_table_name_from_filename filename = none ∧
      process_file_route filename = RouteOutcome.skipped "unknown file pattern") := by
  refine ⟨?_, ?_, ?_, ?_, ?_, ?_⟩
  · intro h
    simp [get_table_name_from_filename, h]
  · intro h
    obtain ⟨r, hr⟩ := h
    subst hr
    have n1 : ¬ pfxCNSTWK <+: pfxSERVC ++ r :=
      not_prefix_append_of_getElem_ne _ _ 25 (by decide) (by decide) (by decide) r
    simp [get_table_name_from_filename, n1, List.prefix_append]
  · intro h
    obtain ⟨r, hr⟩ := h
    subst hr
    have n1 : ¬ pfxCNSTWK <+: pfxTHNG ++ r :=
      not_prefix_append_of_getElem_ne _ _ 25 (by decide) (by decide) (by decide) r
    have n2 : ¬ pfxSERVC <+: pfxTHNG ++ r :=
      not_prefix_append_of_getElem_ne _ _ 25 (by decide) (by decide) (by decide) r
    simp [get_table_name_from_filename, n1, n2, List.prefix_append]
  · intro h
    obtain ⟨r, hr⟩ := h
    subst hr
    have n1 : ¬ pfxCNSTWK <+: pfxFRGCPT ++ r :=
      not_prefix_append_of_getElem_ne _ _ 25 (by decide) (by decide) (by decide) r
    have n2 : ¬ pfxSERVC <+: pfxFRGCPT ++ r :=
      not_prefix_append_of_getElem_ne _ _ 25 (by decide) (by decide) (by decide) r
    have n3 : ¬ pfxTHNG <+: pfxFRGCPT ++ r :=
      not_prefix_append_of_getElem_ne _ _ 25 (by decide) (by decide) (by decide) r
    simp [get_table_name_from_filename, n1, n2, n3, List.prefix_append]
  · intro h
    obtain ⟨r, hr⟩ := h
    subst hr
    have n1 : ¬ pfxCNSTWK <+: pfxSCSBID ++ r :=
      not_prefix_append_of_getElem_ne _ _ 0 (by decide) (by decide) (by decide) r
    have n2 : ¬ pfxSERVC <+: pfxSCSBID ++ r :=
      not_prefix_append_of_getElem_ne _ _ 0 (by decide) (by decide) (by decide) r
    have n3 : ¬ pfxTHNG <+: pfxSCSBID ++ r :=
      not_prefix_append_of_getElem_ne _ _ 0 (by decide) (by decide) (by decide) r
    have n4 : ¬ pfxFRGCPT <+: pfxSCSBID ++ r :=
      not_prefix_append_of_getElem_ne _ _ 0 (by decide) (by decide) (by decide) r
    simp [get_table_name_from_filename, n1, n2, n3, n4, List.prefix_append]
  · intro n1 n2 n3 n4 n5
    constructor
    · simp [get_table_name_from_filename, n1, n2, n3, n4, n5]
    · simp [process_file_route, get_table_name_from_filename, n1, n2, n3, n4, n5]

/-- C2 witness: the routing specification evaluated at the spec's three
example filenames. -/
theorem C2_filename_routing_spec_witness :
    get_table_name_from_filename "BidPublicInfoService_BID_CNSTWK_20240101.json".toList =
      some "bid_pblanclistinfo_cnstwk".toList ∧
    get_table_name_from_filename "PubDataOpnStdService_ScsBidInfo_20240101.json".toList =
      some "opn_std_scsbid_info".toList ∧
    process_file_route "random_file.json".toList =
      RouteOutcome.skipped "unknown file pattern" :=
  ⟨(C2_filename_routing_spec _).1 (by decide),
   (C2_filename_routing_spec _).2.2.2.2.1 (by decide),
   ((C2_filename_routing_spec _).2.2.2.2.2 (by decide) (by decide) (by decide)
     (by decide) (by decide)).2⟩

/-! ## Usage-analytics cost model (`src/calude-monitor.py` lines 88-100)

```
def calculate_cost(usage):
    input_tokens = usage.get('input_tokens', 0)
    output_tokens = usage.get('output_tokens', 0)
    cache_read_tokens = usage.get('cache_read_input_tokens', 0)
    cache_creation_tokens = usage.get('cache_creation_input_tokens', 0)
    input_cost = (input_tokens / 1_000_000) * 3
    output_cost = (output_tokens / 1_000_000) * 15
    cache_read_cost = (cache_read_tokens / 1_000_000) * 0.3
    cache_creation_cost = (cache_creation_tokens / 1_000_000) * 3.75
    return input_cost + output_cost + cache_read_cost + cache_creation_cost
```
The usage block is a JSON object with integer token counters; it is modelled
as an association list, `usage.get(k, 0)` as lookup with default 0, and the
float arithmetic as exact rational arithmetic (every constant involved is a
finite decimal, hence exactly representable).
-/

def dlookup {β : Type} : List (String × β) → String → Option β
  | [], _ => none
  | (k', v) :: rest, k => if k' = k then some v else dlookup rest k

def usageGet (usage : List (String × Nat)) (key : String) : Nat :=
  match dlookup usage key with
  | some v => v
  | none => 0

def calculate_cost (usage : List (String × Nat)) : ℚ :=
  let input_tokens := usageGet usage "input_tokens"
  let output_tokens := usageGet usage "output_tokens"
  let cache_read_tokens := usageGet usage "cache_read_input_tokens"
  let cache_creation_tokens := usageGet usage "cache_creation_input_tokens"
  let input_cost : ℚ := (input_tokens : ℚ) / 1000000 * 3
  let output_cost : ℚ := (output_tokens : ℚ) / 1000000 * 15
  let cache_read_cost : ℚ := (cache_read_tokens : ℚ) / 1000000 * 0.3
  let cache_creation_cost : ℚ := (cache_creation_tokens : ℚ) / 1000000 * 3.75
  input_cost + output_cost + cache_read_cost + cache_creation_cost

/-- C4: `calculate_cost` returns exactly 3.00 for 1,000,000 input tokens, 15.00
for 1,000,000 output tokens, 0.30 for 1,000,000 cache-read tokens, and 3.75 for
1,000,000 cache-creation tokens (all other counters 0), and in general computes
`input/1e6*3 + output/1e6*15 + cache_read/1e6*0.3 + cache_creation/1e6*3.75`
with absent counters treated as 0. -/
theorem C4_calculate_cost_spec :
    calculate_cost [("input_tokens", 1000000), ("output_tokens", 0),
      ("cache_read_input_tokens", 0), ("cache_creation_input_tokens", 0)] = 3 ∧
    calculate_cost [("input_tokens", 0), ("output_tokens", 1000000),
      ("cache_read_input_tokens", 0), ("cache_creation_input_tokens", 0)] = 15 ∧
    calculate_cost [("input_tokens", 0), ("output_tokens", 0),
      ("cache_read_input_tokens", 1000000), ("cache_creation_input_tokens", 0)] = 0.3 ∧
    calculate_cost [("input_tokens", 0), ("output_tokens", 0),
      ("cache_read_input_tokens", 0), ("cache_creation_input_tokens", 1000000)] = 3.75 ∧
    calculate_cost [] = 0 ∧
    (∀ usage : List (String × Nat),
      calculate_cost usage =
        (usageGet usage "input_tokens" : ℚ) / 1000000 * 3 +
        (usageGet usage "output_tokens" : ℚ) / 1000000 * 15 +
        (usageGet usage "cache_read_input_tokens" : ℚ) / 1000000 * 0.3 +
        (usageGet usage "cache_creation_input_tokens" : ℚ) / 1000000 * 3.75) := by
  refine ⟨?_, ?_, ?_, ?_, ?_, ?_⟩
  · simp [calculate_cost, usageGet, dlookup]
  · simp [calculate_cost, usageGet, dlookup]
  · simp [calculate_cost, usageGet, dlookup]
  · simp [calculate_cost, usageGet, dlookup]
  · simp [calculate_cost, usageGet, dlookup]
  · intro usage
    rfl

/-! ## Performance summary (`src/services/data_processor.py` lines 127-174)

`InsertResult` is the dataclass of `src/services/db_manager.py` lines 21-34
(the `timestamp` field defaults to the capture time; it plays no role in the
summary and is modelled as an arbitrary rational).  `get_results_by_cloud`
groups the accumulated results by cloud preserving insertion order, so the
group of one cloud is exactly the order-preserving filter of the result list.
`get_performance_summary` produces a dict keyed by the clouds present in the
results; it is modelled as a partial map from cloud name to the summary of
that cloud's group.  Python `min`/`max` over a nonempty list are the folds
below (the `[]` branches are unreachable artifacts: the code only calls them
under `if successful_results:`).
-/

structure InsertResult where
  cloud : String
  chunk_id : Nat
  records_count : Nat
  execution_time : ℚ
  success : Bool
  error_message : Option String := none
  timestamp : ℚ := 0

structure CloudSummary where
  total_operations : Nat
  successful_operations : Nat
  failed_operations : Nat
  success_rate : ℚ
  total_execution_time : ℚ
  average_execution_time : ℚ
  min_execution_time : ℚ
  max_execution_time : ℚ
  total_records_inserted : Nat
  records_per_second : ℚ

def get_results_by_cloud (results : List InsertResult) (cloud : String) : List InsertResult :=
  results.filter (fun r => r.cloud = cloud)

def pyListMin : List ℚ → ℚ
  | [] => 0
  | x :: xs => xs.foldl min x

def pyListMax : List ℚ → ℚ
  | [] => 0
  | x :: xs => xs.foldl max x

def summary_for_results (cloud_results : List InsertResult) : CloudSummary :=
  let successful := cloud_results.filter (fun r => r.success)
  if successful.isEmpty then
    { total_operations := cloud_results.length
      successful_operations := 0
      failed_operations := cloud_results.length
      success_rate := 0
      total_execution_time := 0
      average_execution_time := 0
      min_execution_time := 0
      max_execution_time := 0
      total_records_inserted := 0
      records_per_second := 0 }
  else
    let execution_times := successful.map (fun r => r.execution_time)
    let total_records := (successful.map (fun r => r.records_count)).sum
    { total_operations := cloud_results.length
      successful_operations := successful.length
      failed_operations := cloud_results.length - successful.length
      success_rate := (successful.length : ℚ) / (cloud_results.length : ℚ) * 100
      total_execution_time := execution_times.sum
      average_execution_time := execution_times.sum / (execution_times.length : ℚ)
      min_execution_time := pyListMin execution_times
      max_execution_time := pyListMax execution_times
      total_records_inserted := total_records
      records_per_second :=
        if execution_times.sum > 0 then (total_records : ℚ) / execution_times.sum else 0 }

def get_performance_summary (results : List InsertResult) (cloud : String) : Option CloudSummary :=
  let cloud_results := get_results_by_cloud results cloud
  if cloud_results.isEmpty then none else some (summary_for_results cloud_results)

def successful_results (results : List InsertResult) (cloud : String) : List InsertResult :=
  (get_results_by_cloud results cloud).filter (fun r => r.success)

theorem foldl_min_le_init (xs : List ℚ) (x : ℚ) : xs.foldl min x ≤ x := by
  induction xs generalizing x with
  | nil => exact le_refl x
  | cons y ys ih => exact le_trans (ih (min x y)) (min_le_left x y)

theorem foldl_min_le_mem (xs : List ℚ) (x : ℚ) : ∀ t ∈ xs, xs.foldl min x ≤ t := by
  induction xs generalizing x with
  | nil => intro t ht; simp at ht
  | cons y ys ih =>
    intro t ht
    rcases List.mem_cons.mp ht with h | h
    · subst h
      exact le_trans (foldl_min_le_init ys (min x t)) (min_le_right x t)
    · exact ih (min x y) t h

theorem foldl_min_mem (xs : List ℚ) (x : ℚ) : xs.foldl min x = x ∨ xs.foldl min x ∈ xs := by
  induction xs generalizing x with
  | nil => exact Or.inl rfl
  | cons y ys ih =>
    rcases ih (min x y) with h | h
    · rcases min_choice x y with hm | hm
      · exact Or.inl (by rw [List.foldl_cons, h, hm])
      · exact Or.inr (by rw [List.foldl_cons, h, hm]; exact List.mem_cons_self y ys)
    · exact Or.inr (List.mem_cons_of_mem y h)

theorem pyListMin_mem (l : List ℚ) (h : l ≠ []) : pyListMin l ∈ l := by
  cases l with
  | nil => exact absurd rfl h
  | cons x xs =>
    rcases foldl_min_mem xs x with h1 | h1
    · rw [pyListMin, h1]; exact List.mem_cons_self x xs
    · rw [pyListMin]; exact List.mem_cons_of_mem x h1

theorem pyListMin_le (l : List ℚ) : ∀ t ∈ l, pyListMin l ≤ t := by
  cases l with
  | nil => intro t ht; simp at ht
  | cons x xs =>
    intro t ht
    rcases List.mem_cons.mp ht with h | h
    · subst h; exact foldl_min_le_init xs t
    · exact foldl_min_le_mem xs x t h

theorem foldl_max_init_le (xs : List ℚ) (x : ℚ) : x ≤ xs.foldl max x := by
  induction xs generalizing x with
  | nil => exact le_refl x
  | cons y ys ih => exact le_trans (le_max_left x y) (ih (max x y))

theorem foldl_max_mem_le (xs : List ℚ) (x : ℚ) : ∀ t ∈ xs, t ≤ xs.foldl max x := by
  induction xs generalizing x with
  | nil => intro t ht; simp at ht
  | cons y ys ih =>
    intro t ht
    rcases List.mem_cons.mp ht with h | h
    · subst h
      exact le_trans (le_max_right x t) (foldl_max_init_le ys (max x t))
    · exact ih (max x y) t h

theorem foldl_max_mem (xs : List ℚ) (x : ℚ) : xs.foldl max x = x ∨ xs.foldl max x ∈ xs := by
  induction xs generalizing x with
  | nil => exact Or.inl rfl
  | cons y ys ih =>
    rcases ih (max x y) with h | h
    · rcases max_choice x y with hm | hm
      · exact Or.inl (by rw [List.foldl_cons, h, hm])
      · exact Or.inr (by rw [List.foldl_cons, h, hm]; exact List.mem_cons_self y ys)
    · exact Or.inr (List.mem_cons_of_mem y h)

theorem pyListMax_mem (l : List ℚ) (h : l ≠ []) : pyListMax l ∈ l := by
  cases l with
  | nil => exact absurd rfl h
  | cons x xs =>
    rcases foldl_max_mem xs x with h1 | h1
    · rw [pyListMax, h1]; exact List.mem_cons_self x xs
    · rw [pyListMax]; exact List.mem_cons_of_mem x h1

theorem pyListMax_le (l : List ℚ) : ∀ t ∈ l, t ≤ pyListMax l := by
  cases l with
  | nil => intro t ht; simp at ht
  | cons x xs =>
    intro t ht
    rcases List.mem_cons.mp ht with h | h
    · subst h; exact foldl_max_init_le xs t
    · exact foldl_max_mem_le xs x t h

/-- C5: for every accumulated result list and every cloud present in it, the
reported summary has: when the cloud's results contain no successful
operation, success rate 0, total/average/min/max execution time 0 and
throughput 0 (no division is performed); when successful operations exist,
average = sum of successful execution times / their count, min and max are a
least and a greatest element of the successful execution times, and, whenever
the total successful execution time is positive (the guard in the code),
throughput = total records of successful operations / total successful
execution time. -/
theorem C5_performance_summary_spec (results : List InsertResult) (cloud : String)
    (s : CloudSummary) (hs : get_performance_summary results cloud = some s) :
    (successful_results results cloud = [] →
      s.success_rate = 0 ∧ s.total_execution_time = 0 ∧ s.average_execution_time = 0 ∧
      s.min_execution_time = 0 ∧ s.max_execution_time = 0 ∧ s.records_per_second = 0) ∧
    (successful_results results cloud ≠ [] →
      s.average_execution_time =
        ((successful_results results cloud).map (fun r => r.execution_time)).sum /
          (((successful_results results cloud).map (fun r => r.execution_time)).length : ℚ) ∧
      s.min_execution_time ∈ (successful_results results cloud).map (fun r => r.execution_time) ∧
      (∀ t ∈ (successful_results results cloud).map (fun r => r.execution_time),
        s.min_execution_time ≤ t) ∧
      s.max_execution_time ∈ (successful_results results cloud).map (fun r => r.execution_time) ∧
      (∀ t ∈ (successful_results results cloud).map (fun r => r.execution_time),
        t ≤ s.max_execution_time) ∧
      (((successful_results results cloud).map (fun r => r.execution_time)).sum > 0 →
        s.records_per_second =
          (((successful_results results cloud).map (fun r => r.records_count)).sum : ℚ) /
            ((successful_results results cloud).map (fun r => r.execution_time)).sum)) := by
  unfold get_performance_summary at hs
  by_cases hemp : (get_results_by_cloud results cloud).isEmpty
  · rw [if_pos hemp] at hs
    cases hs
  · rw [if_neg hemp] at hs
    injection hs with hs
    constructor
    · intro hnil
      rw [← hs]
      unfold summary_for_results
      have : ((get_results_by_cloud results cloud).filter (fun r => r.success)).isEmpty := by
        rw [show (get_results_by_cloud results cloud).filter (fun r => r.success) =
              successful_results results cloud from rfl, hnil]
        rfl
      rw [if_pos this]
      exact ⟨rfl, rfl, rfl, rfl, rfl, rfl⟩
    · intro hne
      rw [← hs]
      unfold summary_for_results
      have heq : (get_results_by_cloud results cloud).filter (fun r => r.success) =
          successful_results results cloud := rfl
      have hne' : ¬ ((get_results_by_cloud results cloud).filter (fun r => r.success)).isEmpty := by
        rw [heq]
        intro habs
        exact hne (List.isEmpty_iff.mp habs)
      rw [if_neg hne']
      have hmapne : (successful_results results cloud).map (fun r => r.execution_time) ≠ [] := by
        intro habs
        exact hne (List.map_eq_nil_iff.mp habs)
      refine ⟨rfl, ?_, ?_, ?_, ?_, ?_⟩
      · exact pyListMin_mem _ hmapne
      · exact pyListMin_le _
      · exact pyListMax_mem _ hmapne
      · exact pyListMax_le _
      · intro hpos
        simp only [heq]
        rw [if_pos hpos]
        rw [Nat.cast_list_sum, List.map_map]
        rfl

def c5demo : List InsertResult :=
  [{ cloud := "gcp", chunk_id := 1, records_count := 3, execution_time := 1/10, success := true },
   { cloud := "gcp", chunk_id := 2, records_count := 3, execution_time := 2/10, success := true },
   { cloud := "gcp", chunk_id := 3, records_count := 4, execution_time := 3/10, success := true },
   { cloud := "gcp", chunk_id := 4, records_count := 5, execution_time := 9, success := false,
     error_message := some "connection reset" },
   { cloud := "azure", chunk_id := 1, records_count := 5, execution_time := 2, success := false,
     error_message := some "timeout" }]

/-- C5 witness: the summary specification evaluated on a concrete result list:
the `azure` group has no successful operation and reports zero throughput; the
`gcp` group has successful times `[0.1, 0.2, 0.3]` and 10 records, reporting
average `0.2`, min `0.1`, max `0.3` and throughput `10 / 0.6 = 50/3`. -/
theorem C5_performance_summary_spec_witness :
    (summary_for_results (get_results_by_cloud c5demo "azure")).records_per_second = 0 ∧
    (summary_for_results (get_results_by_cloud c5demo "gcp")).average_execution_time = 1/5 ∧
    (summary_for_results (get_results_by_cloud c5demo "gcp")).min_execution_time = 1/10 ∧
    (summary_for_results (get_results_by_cloud c5demo "gcp")).max_execution_time = 3/10 ∧
    (summary_for_results (get_results_by_cloud c5demo "gcp")).records_per_second = 50/3 := by
  have hz := (C5_performance_summary_spec c5demo "azure" _ rfl).1 (by rfl)
  have hg := (C5_performance_summary_spec c5demo "gcp" _ rfl).2 (List.cons_ne_nil _ _)
  refine ⟨hz.2.2.2.2.2, ?_, ?_, ?_, ?_⟩
  · rw [hg.1]
    norm_num [successful_results, get_results_by_cloud, c5demo]
  · have hmem := hg.2.1
    have hle := hg.2.2.1 (1/10)
    norm_num [successful_results, get_results_by_cloud, c5demo] at hmem hle ⊢
    rcases hmem with h | h | h
    · exact h
    · rw [h] at hle; norm_num at hle
    · rw [h] at hle; norm_num at hle
  · have hmem := hg.2.2.2.1
    have hle := hg.2.2.2.2.1 (3/10)
    norm_num [successful_results, get_results_by_cloud, c5demo] at hmem hle ⊢
    rcases hmem with h | h | h
    · rw [h] at hle; norm_num at hle
    · rw [h] at hle; norm_num at hle
    · exact h
  · have h := hg.2.2.2.2.2 (by norm_num [successful_results, get_results_by_cloud, c5demo])
    rw [h]
    norm_num [successful_results, get_results_by_cloud, c5demo]

/-! ## Stats Writer file initialization (`src/services/migration/stats_writer.py`)

The writer owns three JSON files; the filesystem state is modelled as three
optional documents (`none` = the file does not exist).  `_init_files`
(lines 32-50) writes the empty default document into each file **only when
that file does not exist**; `clear_all` (lines 151-153) just calls
`_init_files`.  JSON objects whose precise shape is irrelevant here (batch
records, the results document) are modelled as string-to-string association
lists.  The `start_time`/`last_update` fields hold `null` or an ISO timestamp
string, modelled as `Option String`.
-/

structure ProgressDoc where
  status : String
  current_file : String
  current_batch : Nat
  files_completed : Nat
  total_files : Nat
  total_records_processed : Nat
  start_time : Option String
  last_update : Option String
deriving DecidableEq

def defaultProgress : ProgressDoc :=
  { status := "idle", current_file := "", current_batch := 0, files_completed := 0,
    total_files := 0, total_records_processed := 0, start_time := none, last_update := none }

structure StatsDoc where
  batches : List (List (String × String))
deriving DecidableEq

structure StatsFiles where
  progress_file : Option ProgressDoc
  stats_file : Option StatsDoc
  results_file : Option (List (String × String))
deriving DecidableEq

def init_files (fs : StatsFiles) : StatsFiles :=
  { progress_file := match fs.progress_file with
      | none => some defaultProgress
      | some d => some d
    stats_file := match fs.stats_file with
      | none => some { batches := [] }
      | some d => some d
    results_file := match fs.results_file with
      | none => some []
      | some d => some d }

def clear_all (fs : StatsFiles) : StatsFiles := init_files fs

def c6prior : ProgressDoc :=
  { status := "running", current_file := "BidPublicInfoService_BID_THNG_20240101.json",
    current_batch := 7, files_completed := 1, total_files := 3,
    total_records_processed := 1000, start_time := some "2024-01-01T00:00:00",
    last_update := some "2024-01-01T00:05:00" }

/-- C6: the claim says `clearAll()` leaves all three files holding the empty
default documents regardless of their prior contents.  The code's `clear_all`
only delegates to `_init_files`, which writes a file **only if it does not
exist**, so a pre-existing progress file with status `"running"` survives
`clear_all` unchanged — contradicting both the claim and the method's own
docstring ("Clear all statistics files").  When the files are absent, the
defaults are indeed written. -/
theorem C6_clear_all_not_reinitialized :
    (clear_all
      { progress_file := some c6prior,
        stats_file := some { batches := [[("batch_number", "1")]] },
        results_file := some [("total_records", "123")] }).progress_file = some c6prior ∧
    (clear_all
      { progress_file := some c6prior,
        stats_file := some { batches := [[("batch_number", "1")]] },
        results_file := some [("total_records", "123")] }).stats_file =
      some { batches := [[("batch_number", "1")]] } ∧
    c6prior.status = "running" ∧
    defaultProgress.status = "idle" ∧
    c6prior ≠ defaultProgress ∧
    clear_all { progress_file := none, stats_file := none, results_file := none } =
      { progress_file := some defaultProgress, stats_file := some { batches := [] },
        results_file := some [] } := by
  refine ⟨rfl, rfl, rfl, rfl, by decide, rfl⟩

/-! ## Comparison utilities (`src/utils/comparison_utils.py` lines 69-186)

Index entries (`TestRunMeta`) mirror the fields read by
`calculate_performance_metrics`; the outcome fields filled in only at
completion are `Option`s, read with `.get(key, 0)` = `Option.getD _ 0`.
The pandas frame of completed runs is the `filter`+`map` below (rows are
appended in scan order).  `df.loc[df[c].idxmax()]` selects the first row
attaining the maximum of column `c` (`idxmin` dually), modelled by
`firstMaxBy`/`firstMinBy`; `mean` is sum/length; the `groupby(...).agg mean`
tables are modelled per group key (group-key enumeration order is irrelevant
to the claims).  The returned dict is the `AnalysisResult` inductive: the
`no_data` form carries only the status message and no best/worst fields.
(The Python dict key `'instance'` of the best/worst entries is a Lean keyword
and is rendered as the field `instance_type` of `RunRef`.)
-/

structure TestRunMeta where
  test_id : String
  timestamp : String
  cloud_provider : String
  instance_type : String
  batch_size : Nat
  num_connections : Nat
  status : String
  total_records : Option Nat := none
  total_duration_seconds : Option ℚ := none
  average_records_per_second : Option ℚ := none

structure Metric where
  test_id : String
  timestamp : String
  cloud_provider : String
  instance_type : String
  batch_size : Nat
  num_connections : Nat
  total_records : Nat
  total_duration_seconds : ℚ
  average_records_per_second : ℚ

def metric_of_run (t : TestRunMeta) : Metric :=
  { test_id := t.test_id, timestamp := t.timestamp, cloud_provider := t.cloud_provider,
    instance_type := t.instance_type, batch_size := t.batch_size,
    num_connections := t.num_connections,
    total_records := t.total_records.getD 0,
    total_duration_seconds := t.total_duration_seconds.getD 0,
    average_records_per_second := t.average_records_per_second.getD 0 }

def calculate_performance_metrics (test_runs : List TestRunMeta) : List Metric :=
  (test_runs.filter (fun t => t.status = "completed")).map metric_of_run

def firstMaxBy (f : Metric → ℚ) (m : Metric) : List Metric → Metric
  | [] => m
  | y :: ys => firstMaxBy f (if f y > f m then y else m) ys

def firstMinBy (f : Metric → ℚ) (m : Metric) : List Metric → Metric
  | [] => m
  | y :: ys => firstMinBy f (if f y < f m then y else m) ys

structure RunRef where
  test_id : String
  value : ℚ
  provider : String
  instance_type : String

def throughput_ref (m : Metric) : RunRef :=
  { test_id := m.test_id, value := m.average_records_per_second,
    provider := m.cloud_provider, instance_type := m.instance_type }

def duration_ref (m : Metric) : RunRef :=
  { test_id := m.test_id, value := m.total_duration_seconds,
    provider := m.cloud_provider, instance_type := m.instance_type }

def listMean (l : List ℚ) : ℚ := l.sum / (l.length : ℚ)

def by_provider_stats (df : List Metric) : List (String × ℚ × ℚ) :=
  ((df.map (fun m => m.cloud_provider)).dedup).map (fun p =>
    let g := df.filter (fun m => m.cloud_provider = p)
    (p, listMean (g.map (fun m => m.average_records_per_second)),
        listMean (g.map (fun m => m.total_duration_seconds))))

def by_configuration_stats (df : List Metric) : List ((Nat × Nat) × ℚ × ℚ) :=
  ((df.map (fun m => (m.batch_size, m.num_connections))).dedup).map (fun k =>
    let g := df.filter (fun m => (m.batch_size, m.num_connections) = k)
    (k, listMean (g.map (fun m => m.average_records_per_second)),
        listMean (g.map (fun m => m.total_duration_seconds))))

inductive AnalysisResult where
  | no_data (message : String)
  | success (total_tests : Nat)
      (best_throughput worst_throughput fastest_duration slowest_duration : RunRef)
      (avg_throughput avg_duration : ℚ)
      (by_provider : List (String × ℚ × ℚ))
      (by_configuration : List ((Nat × Nat) × ℚ × ℚ))

def analyze_performance_comparison (test_runs : List TestRunMeta) : AnalysisResult :=
  match calculate_performance_metrics test_runs with
  | [] => AnalysisResult.no_data "No completed test runs to compare"
  | m :: ms =>
      AnalysisResult.success (m :: ms).length
        (throughput_ref (firstMaxBy (fun x => x.average_records_per_second) m ms))
        (throughput_ref (firstMinBy (fun x => x.average_records_per_second) m ms))
        (duration_ref (firstMinBy (fun x => x.total_duration_seconds) m ms))
        (duration_ref (firstMaxBy (fun x => x.total_duration_seconds) m ms))
        (listMean ((m :: ms).map (fun x => x.average_records_per_second)))
        (listMean ((m :: ms).map (fun x => x.total_duration_seconds)))
        (by_provider_stats (m :: ms))
        (by_configuration_stats (m :: ms))

theorem firstMaxBy_spec (f : Metric → ℚ) : ∀ (ms : List Metric) (m : Metric),
    firstMaxBy f m ms ∈ m :: ms ∧ ∀ x ∈ m :: ms, f x ≤ f (firstMaxBy f m ms) := by
  intro ms
  induction ms with
  | nil =>
    intro m
    refine ⟨List.mem_cons_self m [], ?_⟩
    intro x hx
    rcases List.mem_cons.mp hx with h | h
    · subst h; exact le_refl _
    · simp at h
  | cons y ys ih =>
    intro m
    obtain ⟨hmem, hbound⟩ := ih (if f y > f m then y else m)
    constructor
    · rw [firstMaxBy]
      rcases List.mem_cons.mp hmem with h | h
      · rw [h]
        split
        · exact List.mem_cons_of_mem m (List.mem_cons_self y ys)
        · exact List.mem_cons_self m _
      · exact List.mem_cons_of_mem m (List.mem_cons_of_mem y h)
    · intro x hx
      rw [firstMaxBy]
      have hmle : f m ≤ f (if f y > f m then y else m) := by
        split
        · rename_i hgt; exact le_of_lt hgt
        · exact le_refl _
      have hyle : f y ≤ f (if f y > f m then y else m) := by
        split
        · exact le_refl _
        · rename_i hngt; exact le_of_not_lt hngt
      have hhead := hbound (if f y > f m then y else m) (List.mem_cons_self _ _)
      rcases List.mem_cons.mp hx with h | h
      · subst h; exact le_trans hmle hhead
      · rcases List.mem_cons.mp h with h2 | h2
        · subst h2; exact le_trans hyle hhead
        · exact hbound x (List.mem_cons_of_mem _ h2)

/-- C7: with zero completed runs, `analyze_performance_comparison` returns the
`no_data` status carrying only a message (no ranking/best/worst fields); with
at least one completed run, non-completed runs are excluded from all
statistics (the metric frame is exactly the map over the status filter), the
`best_throughput` entry is built from a completed run attaining the maximum
`average_records_per_second`, and the reported average throughput (and
duration) is the arithmetic mean over completed runs. -/
theorem C7_analyze_performance_comparison_spec (test_runs : List TestRunMeta) :
    calculate_performance_metrics test_runs =
      (test_runs.filter (fun t => t.status = "completed")).map metric_of_run ∧
    (calculate_performance_metrics test_runs = [] →
      analyze_performance_comparison test_runs =
        AnalysisResult.no_data "No completed test runs to compare") ∧
    (∀ m ms, calculate_performance_metrics test_runs = m :: ms →
      analyze_performance_comparison test_runs =
        AnalysisResult.success (m :: ms).length
          (throughput_ref (firstMaxBy (fun x => x.average_records_per_second) m ms))
          (throughput_ref (firstMinBy (fun x => x.average_records_per_second) m ms))
          (duration_ref (firstMinBy (fun x => x.total_duration_seconds) m ms))
          (duration_ref (firstMaxBy (fun x => x.total_duration_seconds) m ms))
          (((m :: ms).map (fun x => x.average_records_per_second)).sum / (((m :: ms).length : ℚ)))
          (((m :: ms).map (fun x => x.total_duration_seconds)).sum / (((m :: ms).length : ℚ)))
          (by_provider_stats (m :: ms))
          (by_configuration_stats (m :: ms)) ∧
      firstMaxBy (fun x => x.average_records_per_second) m ms ∈ m :: ms ∧
      (∀ x ∈ m :: ms, x.average_records_per_second ≤
        (firstMaxBy (fun x => x.average_records_per_second) m ms).average_records_per_second)) := by
  refine ⟨rfl, ?_, ?_⟩
  · intro h
    unfold analyze_performance_comparison
    rw [h]
  · intro m ms h
    obtain ⟨hmem, hbound⟩ := firstMaxBy_spec (fun x => x.average_records_per_second) ms m
    refine ⟨?_, hmem, hbound⟩
    unfold analyze_performance_comparison
    rw [h]
    simp [listMean]

def c7run1 : TestRunMeta :=
  { test_id := "t1", timestamp := "2024-01-01T10:00:00", cloud_provider := "gcp",
    instance_type := "n1", batch_size := 1000, num_connections := 1, status := "completed",
    total_records := some 1000, total_duration_seconds := some 10,
    average_records_per_second := some 100 }

def c7run2 : TestRunMeta :=
  { test_id := "t2", timestamp := "2024-01-02T10:00:00", cloud_provider := "azure",
    instance_type := "D2", batch_size := 500, num_connections := 2, status := "completed",
    total_records := some 2000, total_duration_seconds := some 10,
    average_records_per_second := some 200 }

def c7run3 : TestRunMeta :=
  { test_id := "t3", timestamp := "2024-01-03T10:00:00", cloud_provider := "gcp",
    instance_type := "n1", batch_size := 1000, num_connections := 1, status := "running" }

/-- C7 witness: over only a non-completed run the analysis is `no_data`; over
two completed runs with throughputs 100 and 200 (plus a running run that is
excluded), the best-throughput entry is the 200 rec/s run and the average
throughput is exactly 150. -/
theorem C7_analyze_performance_comparison_spec_witness :
    analyze_performance_comparison [c7run3] =
      AnalysisResult.no_data "No completed test runs to compare" ∧
    analyze_performance_comparison [c7run1, c7run2, c7run3] =
      AnalysisResult.success 2
        { test_id := "t2", value := 200, provider := "azure", instance_type := "D2" }
        { test_id := "t1", value := 100, provider := "gcp", instance_type := "n1" }
        { test_id := "t1", value := 10, provider := "gcp", instance_type := "n1" }
        { test_id := "t1", value := 10, provider := "gcp", instance_type := "n1" }
        150 10
        [("gcp", 100, 10), ("azure", 200, 10)]
        [((1000, 1), 100, 10), ((500, 2), 200, 10)] := by
  constructor
  · exact (C7_analyze_performance_comparison_spec [c7run3]).2.1 rfl
  · have h := ((C7_analyze_performance_comparison_spec [c7run1, c7run2, c7run3]).2.2
      (metric_of_run c7run1) [metric_of_run c7run2] rfl).1
    rw [h]
    have hd1 : (["gcp", "azure"] : List String).dedup = ["gcp", "azure"] := by simp
    have hd2 : ([(1000, 1), (500, 2)] : List (Nat × Nat)).dedup = [(1000, 1), (500, 2)] := by simp
    norm_num [firstMaxBy, firstMinBy, throughput_ref, duration_ref, metric_of_run,
      by_provider_stats, by_configuration_stats, listMean, c7run1, c7run2, hd1, hd2,
      List.filter_cons, List.filter_nil]
    simp

/-! ## Test Run Manager (`src/services/migration/test_run_manager.py`)

The index file holds a list of run entries (`TestRun` dataclass, lines 14-32,
serialized as dicts).  The status-touching operations named by the claim are
`create_test_run` (lines 82-107: appends a fresh entry with status
`"running"`), and the wrappers `complete_test_run` / `error_test_run`
(lines 120-138), which go through `update_test_run` (lines 109-118: merge
into the **first** entry whose `test_id` matches, then stop).  The clock-
and configuration-derived values (`test_id`, `timestamp`, `output_dir`) are
parameters of the `create` operation.  `TMOp` is exactly that operation
alphabet; `exec_ops` runs a sequence against an index state.
-/

structure TestRunEntry where
  test_id : String
  timestamp : String
  cloud_provider : String
  instance_type : String
  batch_size : Nat
  num_connections : Nat
  status : String
  output_dir : String
  total_records : Option Nat := none
  total_duration_seconds : Option ℚ := none
  average_records_per_second : Option ℚ := none
  error_message : Option String := none

inductive TMOp where
  | create (test_id timestamp cloud_provider instance_type : String)
      (batch_size num_connections : Nat) (output_dir : String)
  | complete (test_id : String) (total_records : Nat)
      (total_duration_seconds average_records_per_second : ℚ)
  | error (test_id : String) (error_message : String)

def update_first (idx : List TestRunEntry) (tid : String)
    (f : TestRunEntry → TestRunEntry) : List TestRunEntry :=
  match idx with
  | [] => []
  | e :: rest => if e.test_id = tid then f e :: rest else e :: update_first rest tid f

def apply_op (op : TMOp) (idx : List TestRunEntry) : List TestRunEntry :=
  match op with
  | TMOp.create tid ts prov inst bs nc odir =>
      idx ++ [{ test_id := tid, timestamp := ts, cloud_provider := prov, instance_type := inst,
                batch_size := bs, num_connections := nc, status := "running", output_dir := odir }]
  | TMOp.complete tid tr td rps =>
      update_first idx tid (fun e =>
        { e with status := "completed", total_records := some tr,
                 total_duration_seconds := some td, average_records_per_second := some rps })
  | TMOp.error tid msg =>
      update_first idx tid (fun e => { e with status := "error", error_message := some msg })

def exec_ops (ops : List TMOp) (idx : List TestRunEntry) : List TestRunEntry :=
  ops.foldl (fun s op => apply_op op s) idx

def get_test_runs_by_status (idx : List TestRunEntry) (status : String) : List TestRunEntry :=
  idx.filter (fun r => r.status = status)

/-- The transition shape asserted by the claim: a step leaves an entry's
status unchanged, or moves it from "running" to "completed" or "error". -/
def status_transition_ok (before after : String) : Prop :=
  before = after ∨ (before = "running" ∧ (after = "completed" ∨ after = "error"))

instance (b a : String) : Decidable (status_transition_ok b a) := by
  unfold status_transition_ok
  infer_instance

def c8op1 : TMOp := TMOp.create "t1" "2024-01-01T00:00:00" "gcp" "n1" 1000 1 "runs/t1"

def c8op2 : TMOp := TMOp.complete "t1" 1000 10 100

def c8op3 : TMOp := TMOp.error "t1" "disk full"

def c8completed : TestRunEntry :=
  { test_id := "t1", timestamp := "2024-01-01T00:00:00", cloud_provider := "gcp",
    instance_type := "n1", batch_size := 1000, num_connections := 1, status := "completed",
    output_dir := "runs/t1", total_records := some 1000, total_duration_seconds := some 10,
    average_records_per_second := some 100 }

def c8errored : TestRunEntry :=
  { c8completed with status := "error", error_message := some "disk full" }

/-- C8 counterexample: the operation sequence `create; complete; error` on one
test id is reachable through the Test Run Manager's API and moves the entry's
status from "completed" to "error" — a transition that is neither a no-op nor
of the form running → {completed, error}, so the claim's "transitions only
from running to completed or running to error" is false as stated. -/
theorem C8_status_transition_counterexample :
    (exec_ops [c8op1, c8op2] [])[0]? = some c8completed ∧
    (apply_op c8op3 (exec_ops [c8op1, c8op2] []))[0]? = some c8errored ∧
    ¬ status_transition_ok c8completed.status c8errored.status := by
  refine ⟨rfl, rfl, by decide⟩

theorem update_first_length (idx : List TestRunEntry) (tid : String)
    (f : TestRunEntry → TestRunEntry) : (update_first idx tid f).length = idx.length := by
  induction idx with
  | nil => rfl
  | cons e rest ih =>
    rw [update_first]
    split
    · rfl
    · simp only [List.length_cons, ih]

theorem update_first_get? (idx : List TestRunEntry) (tid : String)
    (f : TestRunEntry → TestRunEntry) (i : Nat) :
    (update_first idx tid f)[i]? = idx[i]? ∨
    (update_first idx tid f)[i]? = (idx[i]?).map f := by
  induction idx generalizing i with
  | nil => exact Or.inl rfl
  | cons e rest ih =>
    rw [update_first]
    split
    · cases i with
      | zero => exact Or.inr (by simp)
      | succ n => exact Or.inl (by simp)
    · cases i with
      | zero => exact Or.inl (by simp)
      | succ n =>
        rcases ih n with h | h
        · exact Or.inl (by simpa using h)
        · exact Or.inr (by simpa using h)

theorem apply_op_not_running (op : TMOp) (idx : List TestRunEntry) (i : Nat)
    (e : TestRunEntry) (he : idx[i]? = some e) (h : e.status ≠ "running") :
    ∃ e', (apply_op op idx)[i]? = some e' ∧ e'.status ≠ "running" := by
  cases op with
  | create tid ts prov inst bs nc odir =>
    refine ⟨e, ?_, h⟩
    have hi : i < idx.length := (List.getElem?_eq_some.mp he).1
    rw [apply_op, List.getElem?_append_left hi]
    exact he
  | complete tid tr td rps =>
    rw [apply_op]
    rcases update_first_get? idx tid _ i with hu | hu
    · exact ⟨e, by rw [hu]; exact he, h⟩
    · refine ⟨_, by rw [hu, he]; rfl, ?_⟩
      simp
  | error tid msg =>
    rw [apply_op]
    rcases update_first_get? idx tid _ i with hu | hu
    · exact ⟨e, by rw [hu]; exact he, h⟩
    · refine ⟨_, by rw [hu, he]; rfl, ?_⟩
      simp

theorem exec_ops_not_running (ops : List TMOp) (idx : List TestRunEntry) (i : Nat)
    (e : TestRunEntry) (he : idx[i]? = some e) (h : e.status ≠ "running") :
    ∃ e', (exec_ops ops idx)[i]? = some e' ∧ e'.status ≠ "running" := by
  induction ops generalizing idx e with
  | nil => exact ⟨e, he, h⟩
  | cons op ops ih =>
    obtain ⟨e', he', h'⟩ := apply_op_not_running op idx i e he h
    exact ih (apply_op op idx) e' he' h'

/-- C8 (amended): `create_test_run` appends a fresh entry with status
"running"; `complete_test_run` and `error_test_run` set "completed" and
"error" on the first matching entry (so repeated terminal calls may move an
entry between "completed" and "error"); no reachable operation sequence
returns any entry's status to "running"; and `get_test_runs_by_status
("completed")` returns only entries whose current status is "completed",
never one in "running". -/
theorem C8_test_run_status_spec (ops : List TMOp) (idx : List TestRunEntry) :
    (∀ tid ts prov inst bs nc odir,
      apply_op (TMOp.create tid ts prov inst bs nc odir) idx =
        idx ++ [{ test_id := tid, timestamp := ts, cloud_provider := prov,
                  instance_type := inst, batch_size := bs, num_connections := nc,
                  status := "running", output_dir := odir }]) ∧
    (∀ (i : Nat) (e : TestRunEntry), idx[i]? = some e → e.status ≠ "running" →
      ∃ e' : TestRunEntry, (exec_ops ops idx)[i]? = some e' ∧ e'.status ≠ "running") ∧
    (∀ r ∈ get_test_runs_by_status (exec_ops ops idx) "completed",
      r.status = "completed" ∧ r.status ≠ "running") := by
  refine ⟨fun _ _ _ _ _ _ _ => rfl, ?_, ?_⟩
  · intro i e he h
    exact exec_ops_not_running ops idx i e he h
  · intro r hr
    have := List.mem_filter.mp hr
    have hst : r.status = "completed" := by
      have := this.2
      simpa using this
    exact ⟨hst, by rw [hst]; decide⟩

/-- C8 witness: the amended specification instantiated on the concrete
sequence `create; complete` followed by `error`: the completed entry at
position 0 never returns to "running". -/
theorem C8_test_run_status_spec_witness :
    (exec_ops [c8op3] (exec_ops [c8op1, c8op2] []))[0]? = some c8errored ∧
    c8errored.status ≠ "running" := by
  obtain ⟨e', he', h'⟩ := (C8_test_run_status_spec [c8op3] (exec_ops [c8op1, c8op2] [])).2.1
    0 c8completed rfl (by decide)
  have hev : (exec_ops [c8op3] (exec_ops [c8op1, c8op2] []))[0]? = some c8errored := rfl
  rw [hev] at he'
  cases he'
  exact ⟨hev, h'⟩

/-! ## Config loader environment expansion (`src/config/config_loader.py` lines 18-36)

```
if isinstance(value, str) and value.startswith('${') and value.endswith('}'):
    env_expr = value[2:-1]
    if ':-' in env_expr:
        env_var, default = env_expr.split(':-', 1)
        settings[key] = os.getenv(env_var, default)
    else:
        settings[key] = os.getenv(env_expr, value)
```
Setting strings are `List Char`; the literal `${VAR}` is the character list
`'$' :: '\x7b' :: (VAR ++ ['\x7d'])` and `${VAR:-default}` is
`'$' :: '\x7b' :: (VAR ++ [':', '-'] ++ default ++ ['\x7d'])`.  The process
environment is an association list; `os.getenv(name, default)` is
`(getenv env name).getD default`.  `value[2:-1]` is
`(value.drop 2).dropLast`.  `splitColonDash e` returns `none` when `":-"`
does not occur in `e` (the `':-' in env_expr` test) and otherwise splits `e`
around the **first** occurrence, exactly like `e.split(':-', 1)`.
-/

def getenv (env : List (List Char × List Char)) (name : List Char) : Option (List Char) :=
  match env with
  | [] => none
  | (k, v) :: rest => if k = name then some v else getenv rest name

def splitColonDash : List Char → Option (List Char × List Char)
  | [] => none
  | c :: rest =>
      if c = ':' ∧ rest.head? = some '-' then some ([], rest.tail)
      else match splitColonDash rest with
           | some (a, b) => some (c :: a, b)
           | none => none

def expand_value (env : List (List Char × List Char)) (value : List Char) : List Char :=
  if "$\x7b".toList <+: value ∧ "\x7d".toList <:+ value then
    match splitColonDash ((value.drop 2).dropLast) with
    | some (env_var, dflt) => (getenv env env_var).getD dflt
    | none => (getenv env ((value.drop 2).dropLast)).getD value
  else value

theorem splitColonDash_append (a b : List Char) (ha : splitColonDash a = none) :
    splitColonDash (a ++ ':' :: '-' :: b) = some (a, b) := by
  induction a with
  | nil =>
    rw [List.nil_append, splitColonDash]
    simp
  | cons c rest ih =>
    rw [splitColonDash] at ha
    rw [List.cons_append, splitColonDash]
    by_cases hcond : c = ':' ∧ (rest ++ ':' :: '-' :: b).head? = some '-'
    · exfalso
      obtain ⟨hc, hh⟩ := hcond
      cases rest with
      | nil => simp at hh
      | cons d rest' =>
        simp only [List.cons_append, List.head?_cons, Option.some.injEq] at hh
        rw [if_pos ⟨hc, by simp [hh]⟩] at ha
        cases ha
    · rw [if_neg hcond]
      have hrest : splitColonDash rest = none := by
        rcases hsp : splitColonDash rest with _ | p
        · rfl
        · exfalso
          by_cases hca : c = ':' ∧ rest.head? = some '-'
          · rw [if_pos hca] at ha
            cases ha
          · rw [if_neg hca, hsp] at ha
            simp at ha
      rw [ih hrest]

/-- C9: for every cloud setting of the exact form `${VAR}` where `VAR`
contains no `":-"`, `load_database_config`'s expansion replaces it with the
environment variable's value when `VAR` is set, and leaves the setting equal
to the original literal placeholder string when `VAR` is unset (no error, no
empty result); for the form `${VAR:-default}`, an unset `VAR` yields the
literal text to the right of the first `":-"`. -/
theorem C9_env_expansion_spec (env : List (List Char × List Char)) (varName : List Char)
    (hvar : splitColonDash varName = none) :
    (∀ v, getenv env varName = some v →
      expand_value env ('$' :: '\x7b' :: (varName ++ "\x7d".toList)) = v) ∧
    (getenv env varName = none →
      expand_value env ('$' :: '\x7b' :: (varName ++ "\x7d".toList)) =
        '$' :: '\x7b' :: (varName ++ "\x7d".toList)) ∧
    (∀ dflt, getenv env varName = none →
      expand_value env ('$' :: '\x7b' :: (varName ++ ":-".toList ++ dflt ++ "\x7d".toList)) = dflt) := by
  have hpre : ∀ (rest : List Char), "$\x7b".toList <+: ('$' :: '\x7b' :: rest) := by
    intro rest
    exact ⟨rest, rfl⟩
  have hexpr1 : ((('$' :: '\x7b' :: (varName ++ "\x7d".toList)).drop 2).dropLast) = varName := by
    show (varName ++ "\x7d".toList).dropLast = varName
    exact List.dropLast_concat
  refine ⟨?_, ?_, ?_⟩
  · intro v hv
    rw [expand_value, if_pos ⟨hpre (varName ++ "\x7d".toList), ⟨'$' :: '\x7b' :: varName, by simp⟩⟩,
      hexpr1, hvar]
    show (getenv env varName).getD ('$' :: '\x7b' :: (varName ++ "\x7d".toList)) = v
    rw [hv]
    rfl
  · intro hv
    rw [expand_value, if_pos ⟨hpre (varName ++ "\x7d".toList), ⟨'$' :: '\x7b' :: varName, by simp⟩⟩,
      hexpr1, hvar]
    show (getenv env varName).getD ('$' :: '\x7b' :: (varName ++ "\x7d".toList)) =
      '$' :: '\x7b' :: (varName ++ "\x7d".toList)
    rw [hv]
    rfl
  · intro dflt hv
    have hexpr3 : ((('$' :: '\x7b' :: (varName ++ ":-".toList ++ dflt ++ "\x7d".toList)).drop 2).dropLast)
        = varName ++ ':' :: '-' :: dflt := by
      show (varName ++ ":-".toList ++ dflt ++ "\x7d".toList).dropLast = varName ++ ':' :: '-' :: dflt
      rw [show varName ++ ":-".toList ++ dflt ++ "\x7d".toList =
            (varName ++ ':' :: '-' :: dflt) ++ ['}'] by simp]
      exact List.dropLast_concat
    rw [expand_value,
      if_pos ⟨hpre (varName ++ ":-".toList ++ dflt ++ "\x7d".toList),
        ⟨'$' :: '\x7b' :: (varName ++ ':' :: '-' :: dflt), by simp⟩⟩,
      hexpr3, splitColonDash_append varName dflt hvar]
    show (getenv env varName).getD dflt = dflt
    rw [hv]
    rfl

/-- C9 witness: with `GCP_DB_HOST` set to `db.example.com` and `GCP_DB_PORT`
unset, `${GCP_DB_HOST}` expands to the value, `${GCP_DB_PORT}` stays the
literal placeholder, and `${GCP_DB_PORT:-5432}` yields `5432`. -/
theorem C9_env_expansion_spec_witness :
    expand_value [("GCP_DB_HOST".toList, "db.example.com".toList)]
      ('$' :: '\x7b' :: ("GCP_DB_HOST".toList ++ "\x7d".toList)) = "db.example.com".toList ∧
    expand_value [("GCP_DB_HOST".toList, "db.example.com".toList)]
      ('$' :: '\x7b' :: ("GCP_DB_PORT".toList ++ "\x7d".toList)) =
      '$' :: '\x7b' :: ("GCP_DB_PORT".toList ++ "\x7d".toList) ∧
    expand_value [("GCP_DB_HOST".toList, "db.example.com".toList)]
      ('$' :: '\x7b' :: ("GCP_DB_PORT".toList ++ ":-".toList ++ "5432".toList ++ "\x7d".toList)) =
      "5432".toList :=
  ⟨(C9_env_expansion_spec _ _ (by decide)).1 _ (by decide),
   (C9_env_expansion_spec _ _ (by decide)).2.1 (by decide),
   (C9_env_expansion_spec _ _ (by decide)).2.2 _ (by decide)⟩

/-! ## `update_test_run` frame effect
(`src/services/migration/test_run_manager.py` lines 109-118)

```
index_data = self._read_index()
for test_run in index_data["test_runs"]:
    if test_run["test_id"] == test_id:
        test_run.update(updates)
        break
self._write_index(index_data)
```
Here the raw dict level matters (the `**updates` keyword dict can carry any
fields), so index entries are association lists over an arbitrary value type
`α`.  `dict.update` overwrites existing keys in place (preserving their
position) and appends new keys, modelled by `dictSet`/`dictUpdate`.  The
loop patches the **first** entry whose `"test_id"` equals the argument and
stops; if none matches, the loop falls through and the index is written back
as read.  (Entries created by this manager always carry a `"test_id"` key,
so the `Option`-valued `dlookup` comparison agrees with Python's
`test_run["test_id"]` on every index the program builds.)
-/

def dictSet {α : Type} (d : List (String × α)) (k : String) (v : α) : List (String × α) :=
  if d.any (fun p => p.1 = k) then
    d.map (fun p => if p.1 = k then (k, v) else p)
  else d ++ [(k, v)]

def dictUpdate {α : Type} (d updates : List (String × α)) : List (String × α) :=
  updates.foldl (fun acc p => dictSet acc p.1 p.2) d

def update_test_run {α : Type} [DecidableEq α] (idx : List (List (String × α)))
    (tid : α) (updates : List (String × α)) : List (List (String × α)) :=
  match idx with
  | [] => []
  | e :: rest =>
      if dlookup e "test_id" = some tid then dictUpdate e updates :: rest
      else e :: update_test_run rest tid updates

theorem dlookup_eq_none_of_not_mem {α : Type} (d : List (String × α)) (k : String)
    (h : k ∉ d.map Prod.fst) : dlookup d k = none := by
  induction d with
  | nil => rfl
  | cons p rest ih =>
    rw [dlookup]
    rw [if_neg]
    · exact ih (fun hm => h (List.mem_cons_of_mem _ hm))
    · intro hk
      exact h (by rw [← hk]; exact List.mem_cons_self _ _)

theorem dlookup_map_set {α : Type} (d : List (String × α)) (k : String) (v : α)
    (h : d.any (fun p => p.1 = k) = true) :
    dlookup (d.map (fun p => if p.1 = k then (k, v) else p)) k = some v := by
  induction d with
  | nil => simp at h
  | cons p rest ih =>
    by_cases hp : p.1 = k
    · simp only [List.map_cons, if_pos hp]
      rw [dlookup, if_pos rfl]
    · simp only [List.map_cons, if_neg hp]
      rw [dlookup, if_neg hp]
      apply ih
      simp only [List.any_cons, decide_eq_true_eq] at h
      rcases Bool.or_eq_true_iff.mp h with h1 | h1
      · exact absurd (of_decide_eq_true h1) hp
      · exact h1

theorem dlookup_map_other {α : Type} (d : List (String × α)) (k k' : String) (v : α)
    (hne : k' ≠ k) :
    dlookup (d.map (fun p => if p.1 = k then (k, v) else p)) k' = dlookup d k' := by
  induction d with
  | nil => rfl
  | cons p rest ih =>
    by_cases hp : p.1 = k
    · simp only [List.map_cons, if_pos hp]
      rw [dlookup, if_neg (fun h => hne h.symm), dlookup, if_neg (by rw [hp]; exact fun h => hne h.symm)]
      exact ih
    · simp only [List.map_cons, if_neg hp]
      rw [dlookup, dlookup]
      by_cases hpk : p.1 = k'
      · rw [if_pos hpk, if_pos hpk]
      · rw [if_neg hpk, if_neg hpk]
        exact ih

theorem dlookup_append_of_none {α : Type} (d l : List (String × α)) (k : String)
    (h : dlookup d k = none) : dlookup (d ++ l) k = dlookup l k := by
  induction d with
  | nil => rfl
  | cons p rest ih =>
    rw [dlookup] at h
    rw [List.cons_append, dlookup]
    by_cases hp : p.1 = k
    · rw [if_pos hp] at h
      cases h
    · rw [if_neg hp] at h ⊢
      exact ih h

theorem dlookup_not_mem_of_any_false {α : Type} (d : List (String × α)) (k : String)
    (h : ¬ d.any (fun p => p.1 = k) = true) : dlookup d k = none := by
  apply dlookup_eq_none_of_not_mem
  intro hm
  apply h
  rw [List.any_eq_true]
  obtain ⟨p, hp, hpk⟩ := List.mem_map.mp hm
  exact ⟨p, hp, by simp [hpk]⟩

theorem dlookup_dictSet_self {α : Type} (d : List (String × α)) (k : String) (v : α) :
    dlookup (dictSet d k v) k = some v := by
  rw [dictSet]
  split
  · rename_i h
    exact dlookup_map_set d k v h
  · rename_i h
    rw [dlookup_append_of_none d _ k (dlookup_not_mem_of_any_false d k h)]
    rw [dlookup, if_pos rfl]

theorem dlookup_append_of_some {α : Type} (d l : List (String × α)) (k : String) (w : α)
    (h : dlookup d k = some w) : dlookup (d ++ l) k = some w := by
  induction d with
  | nil => cases h
  | cons p rest ih =>
    rw [dlookup] at h
    rw [List.cons_append, dlookup]
    by_cases hp : p.1 = k
    · rw [if_pos hp] at h ⊢
      exact h
    · rw [if_neg hp] at h ⊢
      exact ih h

theorem dlookup_dictSet_other {α : Type} (d : List (String × α)) (k k' : String) (v : α)
    (hne : k' ≠ k) : dlookup (dictSet d k v) k' = dlookup d k' := by
  rw [dictSet]
  split
  · exact dlookup_map_other d k k' v hne
  · rcases hd : dlookup d k' with _ | w
    · rw [dlookup_append_of_none d _ k' hd, dlookup, if_neg (fun h => hne h.symm)]
      rfl
    · rw [dlookup_append_of_some d _ k' w hd]

theorem dlookup_dictUpdate {α : Type} (u : List (String × α))
    (hnd : (u.map Prod.fst).Nodup) (e : List (String × α)) (k : String) :
    dlookup (dictUpdate e u) k =
      match dlookup u k with
      | some v => some v
      | none => dlookup e k := by
  induction u generalizing e with
  | nil => rfl
  | cons p u' ih =>
    have hnd' : (u'.map Prod.fst).Nodup := by
      rw [List.map_cons] at hnd
      exact (List.nodup_cons.mp hnd).2
    have hp1 : p.1 ∉ u'.map Prod.fst := by
      rw [List.map_cons] at hnd
      exact (List.nodup_cons.mp hnd).1
    have hstep : dictUpdate e (p :: u') = dictUpdate (dictSet e p.1 p.2) u' := rfl
    rw [hstep, ih hnd']
    by_cases hk : p.1 = k
    · subst hk
      rw [dlookup_eq_none_of_not_mem u' p.1 hp1]
      rw [dlookup, if_pos rfl]
      rw [dlookup_dictSet_self]
    · rw [dlookup, if_neg hk]
      rcases hu' : dlookup u' k with _ | w
      · rw [dlookup_dictSet_other e p.1 k p.2 (fun h => hk h.symm)]
      · rfl

/-- C10: for every index state and test id, `update_test_run` modifies at
most the first entry whose `test_id` equals the argument, merging the given
fields into it (updated keys read back with their new values, untouched keys
keep their old values); every other entry is unchanged, and when no entry
matches, the written-back index equals what was read — no error is raised and
no entry is created. -/
theorem C10_update_test_run_frame {α : Type} [DecidableEq α]
    (idx : List (List (String × α))) (tid : α) (u : List (String × α)) :
    ((∀ e ∈ idx, dlookup e "test_id" ≠ some tid) → update_test_run idx tid u = idx) ∧
    (∀ pre e post, idx = pre ++ e :: post →
      (∀ e' ∈ pre, dlookup e' "test_id" ≠ some tid) →
      dlookup e "test_id" = some tid →
      update_test_run idx tid u = pre ++ dictUpdate e u :: post) ∧
    ((u.map Prod.fst).Nodup → ∀ (e : List (String × α)) (k : String),
      (∀ v, dlookup u k = some v → dlookup (dictUpdate e u) k = some v) ∧
      (dlookup u k = none → dlookup (dictUpdate e u) k = dlookup e k)) := by
  refine ⟨?_, ?_, ?_⟩
  · intro h
    induction idx with
    | nil => rfl
    | cons e rest ih =>
      rw [update_test_run, if_neg (h e (List.mem_cons_self _ _))]
      rw [ih (fun e' he' => h e' (List.mem_cons_of_mem _ he'))]
  · intro pre
    induction pre generalizing idx with
    | nil =>
      intro e post hidx _ hmatch
      subst hidx
      simp only [List.nil_append]
      rw [update_test_run, if_pos hmatch]
    | cons p pre' ih =>
      intro e post hidx hpre hmatch
      subst hidx
      rw [List.cons_append, update_test_run,
        if_neg (hpre p (List.mem_cons_self _ _))]
      rw [ih (pre' ++ e :: post) e post rfl
        (fun e' he' => hpre e' (List.mem_cons_of_mem _ he')) hmatch]
      rfl
  · intro hnd e k
    constructor
    · intro v hv
      rw [dlookup_dictUpdate u hnd e k, hv]
    · intro hv
      rw [dlookup_dictUpdate u hnd e k, hv]

def c10e1 : List (String × String) := [("test_id", "a"), ("status", "running")]

def c10e2 : List (String × String) :=
  [("test_id", "b"), ("status", "running"), ("batch_size", "1000")]

def c10e3 : List (String × String) := [("test_id", "b"), ("status", "running")]

def c10u : List (String × String) := [("status", "completed"), ("total_records", "5")]

/-- C10 witness: on a three-entry index with duplicate test id "b", updating
"b" patches only the first matching entry (the later duplicate and the
non-matching entry are untouched), the merged entry reads back the updated
and the untouched keys correctly, and updating an absent id "z" returns the
index unchanged. -/
theorem C10_update_test_run_frame_witness :
    update_test_run [c10e1, c10e2, c10e3] "b" c10u = [c10e1, dictUpdate c10e2 c10u, c10e3] ∧
    update_test_run [c10e1, c10e2, c10e3] "z" c10u = [c10e1, c10e2, c10e3] ∧
    dlookup (dictUpdate c10e2 c10u) "status" = some "completed" ∧
    dlookup (dictUpdate c10e2 c10u) "total_records" = some "5" ∧
    dlookup (dictUpdate c10e2 c10u) "batch_size" = dlookup c10e2 "batch_size" := by
  refine ⟨?_, ?_, ?_, ?_, ?_⟩
  · exact (C10_update_test_run_frame [c10e1, c10e2, c10e3] "b" c10u).2.1
      [c10e1] c10e2 [c10e3] rfl (by decide) (by decide)
  · exact (C10_update_test_run_frame [c10e1, c10e2, c10e3] "z" c10u).1 (by decide)
  · exact ((C10_update_test_run_frame [c10e1, c10e2, c10e3] "b" c10u).2.2 (by decide)
      c10e2 "status").1 "completed" (by decide)
  · exact ((C10_update_test_run_frame [c10e1, c10e2, c10e3] "b" c10u).2.2 (by decide)
      c10e2 "total_records").1 "5" (by decide)
  · exact ((C10_update_test_run_frame [c10e1, c10e2, c10e3] "b" c10u).2.2 (by decide)
      c10e2 "batch_size").2 (by decide)

/-! ## Synthesized `opn_std_scsbid_info` ids
(`src/data_migration.py` lines 104-159, with the same id loop in
`src/services/migration/migrator.py` lines 101-158)

```
for i in range(0, len(records), batch_size):
    batch = records[i:i + batch_size]
    batch_data = [prepare_record_data(record, table_columns) for record in batch]
    ...
    if table_name == 'opn_std_scsbid_info':
        for j, data in enumerate(batch_data):
            data['id'] = f"{data.get('bidNtceNo', '')}_{data.get('bidNtceOrd', '')}_{i+j+1}"
```
A JSON record / prepared row is an association list from column name to
`Option String` (`none` is Python `None`; non-string JSON values are
stringified by `prepare_record_data`, so the string is the value's `str()`
form).  In the f-string, a present value renders as itself (`"None"` for
`None`), an absent key falls back to the `''` default (`pyDictGet`); the
`{i+j+1}` fragment is Python `str` of the 1-based index, i.e. its decimal
representation (`natRepr`).  `insert_batch_ids prep bs records` is the list
of ids the loop assigns, in assignment order, with `prep` the record
preparation: `data_migration.py` maps `None` and absent columns to `None`
(`prepare_record_data` below); `migrator.py` additionally maps `""` to
`None` (`prepare_record_data_streamlit`); the id theorem holds for any
preparation, so it covers both migrators.
-/

def pyFmtOpt : Option String → String
  | none => "None"
  | some s => s

def pyDictGet (d : List (String × Option String)) (k : String) : String :=
  match dlookup d k with
  | some v => pyFmtOpt v
  | none => ""

def prepare_record_data (record : List (String × Option String)) (cols : List String) :
    List (String × Option String) :=
  cols.map (fun c => (c,
    match dlookup record c with
    | some v => v
    | none => none))

def prepare_record_data_streamlit (record : List (String × Option String))
    (cols : List String) : List (String × Option String) :=
  cols.map (fun c => (c,
    match dlookup record c with
    | some (some s) => if s = "" then none else some s
    | some none => none
    | none => none))

def digitChar (d : Nat) : Char :=
  ['0', '1', '2', '3', '4', '5', '6', '7', '8', '9'].getD d '*'

def natReprAux : Nat → Nat → List Char
  | 0, _ => []
  | fuel + 1, n =>
      if n = 0 then []
      else natReprAux fuel (n / 10) ++ [digitChar (n % 10)]

def natRepr (n : Nat) : String :=
  if n = 0 then "0" else String.mk (natReprAux n n)

def make_id (data : List (String × Option String)) (n : Nat) : String :=
  pyDictGet data "bidNtceNo" ++ "_" ++ pyDictGet data "bidNtceOrd" ++ "_" ++ natRepr n

def batch_ids (prep : List (String × Option String) → List (String × Option String))
    (i : Nat) (batch : List (List (String × Option String))) : List String :=
  ((batch.map prep).enum).map (fun jd => make_id jd.2 (i + jd.1 + 1))

def insert_batch_ids_aux (prep : List (String × Option String) → List (String × Option String))
    (bs : Nat) (i : Nat) (records : List (List (String × Option String))) : List String :=
  if _hbs : bs = 0 then []
  else if _h : records.isEmpty then []
  else batch_ids prep i (records.take bs) ++
       insert_batch_ids_aux prep bs (i + bs) (records.drop bs)
termination_by records.length
decreasing_by
  simp only [List.length_drop]
  have h2 : records ≠ [] := by
    intro hnil
    rw [hnil] at _h
    exact _h rfl
  have := List.length_pos.mpr h2
  omega

def insert_batch_ids (prep : List (String × Option String) → List (String × Option String))
    (bs : Nat) (records : List (List (String × Option String))) : List String :=
  insert_batch_ids_aux prep bs 0 records

def ids_from (prep : List (String × Option String) → List (String × Option String))
    (i : Nat) : List (List (String × Option String)) → List String
  | [] => []
  | r :: rs => make_id (prep r) (i + 1) :: ids_from prep (i + 1) rs

theorem insert_batch_ids_aux_nil
    (prep : List (String × Option String) → List (String × Option String)) (bs i : Nat) :
    insert_batch_ids_aux prep bs i [] = [] := by
  rw [insert_batch_ids_aux]
  simp

theorem insert_batch_ids_aux_cons
    (prep : List (String × Option String) → List (String × Option String)) (bs i : Nat)
    (records : List (List (String × Option String))) (hbs : 0 < bs) (hr : records ≠ []) :
    insert_batch_ids_aux prep bs i records =
      batch_ids prep i (records.take bs) ++
      insert_batch_ids_aux prep bs (i + bs) (records.drop bs) := by
  rw [insert_batch_ids_aux]
  have h1 : bs ≠ 0 := by omega
  have h2 : records.isEmpty = false := by
    cases records with
    | nil => exact absurd rfl hr
    | cons x xs => rfl
  simp [h1, h2]

theorem enumFrom_make_id
    (prep : List (String × Option String) → List (String × Option String)) (i : Nat) :
    ∀ (l : List (List (String × Option String))) (n : Nat),
    (((l.map prep).enumFrom n).map (fun jd => make_id jd.2 (i + jd.1 + 1))) =
      ids_from prep (i + n) l := by
  intro l
  induction l with
  | nil => intro n; rfl
  | cons r rs ih =>
    intro n
    show make_id (prep r) (i + n + 1) ::
        ((rs.map prep).enumFrom (n + 1)).map (fun jd => make_id jd.2 (i + jd.1 + 1)) =
      make_id (prep r) ((i + n) + 1) :: ids_from prep ((i + n) + 1) rs
    rw [ih (n + 1), show i + (n + 1) = (i + n) + 1 from by omega]

theorem batch_ids_eq
    (prep : List (String × Option String) → List (String × Option String)) (i : Nat)
    (l : List (List (String × Option String))) : batch_ids prep i l = ids_from prep i l := by
  have h := enumFrom_make_id prep i l 0
  rw [Nat.add_zero] at h
  exact h

theorem ids_from_append
    (prep : List (String × Option String) → List (String × Option String)) :
    ∀ (a b : List (List (String × Option String))) (i : Nat),
    ids_from prep i (a ++ b) = ids_from prep i a ++ ids_from prep (i + a.length) b := by
  intro a
  induction a with
  | nil => intro b i; simp [ids_from]
  | cons r rs ih =>
    intro b i
    show make_id (prep r) (i + 1) :: ids_from prep (i + 1) (rs ++ b) =
      (make_id (prep r) (i + 1) :: ids_from prep (i + 1) rs) ++
        ids_from prep (i + (rs.length + 1)) b
    rw [ih b (i + 1), List.cons_append,
      show i + 1 + rs.length = i + (rs.length + 1) from by omega]

theorem ids_from_length
    (prep : List (String × Option String) → List (String × Option String)) :
    ∀ (l : List (List (String × Option String))) (i : Nat),
    (ids_from prep i l).length = l.length := by
  intro l
  induction l with
  | nil => intro i; rfl
  | cons r rs ih =>
    intro i
    show (ids_from prep (i + 1) rs).length + 1 = rs.length + 1
    rw [ih (i + 1)]

theorem insert_batch_ids_aux_eq
    (prep : List (String × Option String) → List (String × Option String)) (bs : Nat)
    (hbs : 0 < bs) (records : List (List (String × Option String))) (i : Nat) :
    insert_batch_ids_aux prep bs i records = ids_from prep i records := by
  by_cases hr : records = []
  · subst hr
    rw [insert_batch_ids_aux_nil]
    rfl
  · rw [insert_batch_ids_aux_cons prep bs i records hbs hr, batch_ids_eq,
      insert_batch_ids_aux_eq prep bs hbs (records.drop bs) (i + bs)]
    rcases le_or_lt bs records.length with h | h
    · conv_rhs => rw [← List.take_append_drop bs records]
      rw [ids_from_append]
      have hlen : (records.take bs).length = bs := by
        rw [List.length_take]
        omega
      rw [hlen]
    · have hdrop : records.drop bs = [] := List.drop_eq_nil_of_le (le_of_lt h)
      have htake : records.take bs = records := List.take_of_length_le (le_of_lt h)
      rw [hdrop, htake]
      show ids_from prep i records ++ [] = ids_from prep i records
      rw [List.append_nil]
termination_by records.length
decreasing_by
  simp only [List.length_drop]
  have := List.length_pos.mpr hr
  omega

theorem ids_from_get?
    (prep : List (String × Option String) → List (String × Option String)) :
    ∀ (l : List (List (String × Option String))) (i k : Nat),
    (ids_from prep i l)[k]? = (l[k]?).map (fun r => make_id (prep r) (i + k + 1)) := by
  intro l
  induction l with
  | nil => intro i k; simp [ids_from]
  | cons r rs ih =>
    intro i k
    cases k with
    | zero => simp [ids_from]
    | succ k' =>
      rw [ids_from]
      simp only [List.getElem?_cons_succ]
      rw [ih (i + 1) k', show i + 1 + k' + 1 = i + (k' + 1) + 1 from by omega]

theorem digitChar_inj : ∀ d < 10, ∀ e < 10, digitChar d = digitChar e → d = e := by
  decide

theorem map_digitChar_inj : ∀ (l1 l2 : List Nat),
    (∀ d ∈ l1, d < 10) → (∀ d ∈ l2, d < 10) →
    l1.map digitChar = l2.map digitChar → l1 = l2 := by
  intro l1
  induction l1 with
  | nil =>
    intro l2 _ _ h
    cases l2 with
    | nil => rfl
    | cons e l2' => simp at h
  | cons d l1' ih =>
    intro l2 h1 h2 h
    cases l2 with
    | nil => simp at h
    | cons e l2' =>
      simp only [List.map_cons, List.cons.injEq] at h
      have hde : d = e :=
        digitChar_inj d (h1 d (List.mem_cons_self _ _)) e (h2 e (List.mem_cons_self _ _)) h.1
      rw [hde, ih l2' (fun x hx => h1 x (List.mem_cons_of_mem _ hx))
        (fun x hx => h2 x (List.mem_cons_of_mem _ hx)) h.2]

theorem natReprAux_eq_digits : ∀ (fuel n : Nat), n ≤ fuel →
    natReprAux fuel n = ((Nat.digits 10 n).map digitChar).reverse := by
  intro fuel
  induction fuel with
  | zero =>
    intro n h
    have : n = 0 := by omega
    subst this
    rw [show natReprAux 0 0 = ([] : List Char) from rfl, Nat.digits_zero]
    rfl
  | succ fuel ih =>
    intro n h
    rw [natReprAux]
    by_cases hn : n = 0
    · subst hn
      simp
    · rw [if_neg hn]
      have hdiv : n / 10 ≤ fuel := by
        have := Nat.div_lt_self (Nat.pos_of_ne_zero hn) (by norm_num : (1:ℕ) < 10)
        omega
      rw [ih (n / 10) hdiv,
        Nat.digits_def' (by norm_num : (1:ℕ) < 10) (Nat.pos_of_ne_zero hn),
        List.map_cons, List.reverse_cons]

theorem natRepr_data_eq (n : Nat) (hn : n ≠ 0) :
    (natRepr n).data = ((Nat.digits 10 n).map digitChar).reverse := by
  rw [natRepr, if_neg hn]
  exact natReprAux_eq_digits n n (le_refl n)

theorem digits_eq_of_repr_eq (m n : Nat) (hm : m ≠ 0) (hn : n ≠ 0)
    (h : (natRepr m).data = (natRepr n).data) : m = n := by
  rw [natRepr_data_eq m hm, natRepr_data_eq n hn] at h
  have h2 : (Nat.digits 10 m).map digitChar = (Nat.digits 10 n).map digitChar :=
    List.reverse_injective h
  have h3 : Nat.digits 10 m = Nat.digits 10 n :=
    map_digitChar_inj _ _ (fun d hd => Nat.digits_lt_base (by norm_num) hd)
      (fun d hd => Nat.digits_lt_base (by norm_num) hd) h2
  have h4 := congrArg (Nat.ofDigits 10) h3
  rwa [Nat.ofDigits_digits, Nat.ofDigits_digits] at h4

theorem natRepr_ne_zero_repr (n : Nat) (hn : n ≠ 0) : (natRepr n).data ≠ ['0'] := by
  intro h
  rw [natRepr_data_eq n hn] at h
  have h0 : (['0'] : List Char) = ([0].map digitChar).reverse := rfl
  rw [h0] at h
  have h2 : (Nat.digits 10 n).map digitChar = [0].map digitChar :=
    List.reverse_injective h
  have h3 : Nat.digits 10 n = [0] :=
    map_digitChar_inj _ _ (fun d hd => Nat.digits_lt_base (by norm_num) hd)
      (fun d hd => by simp at hd; omega) h2
  have h4 := congrArg (Nat.ofDigits 10) h3
  rw [Nat.ofDigits_digits] at h4
  simp [Nat.ofDigits] at h4
  exact hn h4

theorem natRepr_inj (m n : Nat) (h : natRepr m = natRepr n) : m = n := by
  have hd := congrArg String.data h
  by_cases hm : m = 0 <;> by_cases hn : n = 0
  · rw [hm, hn]
  · exfalso
    rw [hm] at hd
    exact natRepr_ne_zero_repr n hn hd.symm
  · exfalso
    rw [hn] at hd
    exact natRepr_ne_zero_repr m hm hd
  · exact digits_eq_of_repr_eq m n hm hn hd

theorem make_id_index_inj (d d' : List (String × Option String)) (n n' : Nat)
    (h1 : pyDictGet d "bidNtceNo" = pyDictGet d' "bidNtceNo")
    (h2 : pyDictGet d "bidNtceOrd" = pyDictGet d' "bidNtceOrd")
    (h : make_id d n = make_id d' n') : n = n' := by
  unfold make_id at h
  rw [← h1, ← h2] at h
  have hd := congrArg String.data h
  simp only [String.data_append, List.append_assoc] at hd
  have h3 := List.append_cancel_left hd
  have h4 := List.append_cancel_left h3
  have h5 := List.append_cancel_left h4
  have h6 := List.append_cancel_left h5
  exact natRepr_inj n n' (congrArg String.mk h6)

/-- C3: for every record list, any column preparation (covering both
migrators' `prepare_record_data`), and any positive batch size, the id list
the insert loop synthesizes for `opn_std_scsbid_info` has one id per record,
the id at 0-based position `k` (batch start offset `i` plus position `j` in
the batch, `k = i + j`) is
`"{bidNtceNo}_{bidNtceOrd}_{k+1}"` rendered from the prepared record — the
1-based global index within the whole file's record list; hence two records
with identical rendered `bidNtceNo` and `bidNtceOrd` at different positions
receive distinct ids. -/
theorem C3_scsbid_id_spec
    (prep : List (String × Option String) → List (String × Option String))
    (bs : Nat) (hbs : 0 < bs) (records : List (List (String × Option String))) :
    (insert_batch_ids prep bs records).length = records.length ∧
    (∀ k : Nat, (insert_batch_ids prep bs records)[k]? =
      (records[k]?).map (fun r => make_id (prep r) (k + 1))) ∧
    (∀ k k' : Nat, ∀ r r', records[k]? = some r → records[k']? = some r' → k ≠ k' →
      pyDictGet (prep r) "bidNtceNo" = pyDictGet (prep r') "bidNtceNo" →
      pyDictGet (prep r) "bidNtceOrd" = pyDictGet (prep r') "bidNtceOrd" →
      make_id (prep r) (k + 1) ≠ make_id (prep r') (k' + 1)) := by
  refine ⟨?_, ?_, ?_⟩
  · rw [insert_batch_ids, insert_batch_ids_aux_eq prep bs hbs records 0, ids_from_length]
  · intro k
    rw [insert_batch_ids, insert_batch_ids_aux_eq prep bs hbs records 0,
      ids_from_get? prep records 0 k]
    simp only [Nat.zero_add]
  · intro k k' r r' _ _ hkk hno hord heq
    exact hkk (by
      have := make_id_index_inj (prep r) (prep r') (k + 1) (k' + 1) hno hord heq
      omega)

def c3rec : List (String × Option String) := [("bidNtceNo", some "A"), ("bidNtceOrd", some "1")]

def c3prep : List (String × Option String) → List (String × Option String) :=
  fun r => prepare_record_data r ["bidNtceNo", "bidNtceOrd"]

/-- C3 witness: two records with `bidNtceNo="A"`, `bidNtceOrd="1"` inserted as
the 1st and 2nd records of a batch starting at global offset 0 receive the
distinct ids `"A_1_1"` and `"A_1_2"`. -/
theorem C3_scsbid_id_spec_witness :
    (insert_batch_ids c3prep 1000 [c3rec, c3rec])[0]? = some "A_1_1" ∧
    (insert_batch_ids c3prep 1000 [c3rec, c3rec])[1]? = some "A_1_2" ∧
    make_id (c3prep c3rec) 1 ≠ make_id (c3prep c3rec) 2 := by
  have h := C3_scsbid_id_spec c3prep 1000 (by decide) [c3rec, c3rec]
  refine ⟨?_, ?_, h.2.2 0 1 c3rec c3rec rfl rfl (by decide) rfl rfl⟩
  · rw [h.2.1 0]
    decide
  · rw [h.2.1 1]
    decide
